import Mathlib

/-!
Shallow embedding of `src/python/get-gmp-data.py` (GrMtnPower), a 46-line
straight-line Python script: it assembles one request URL from hardcoded
configuration strings, builds a Basic-Auth header by Base64-encoding
`apiKeyId ++ ":" ++ apiKeySecret`, performs one HTTP GET, prints the status
code and elapsed time, decodes the body as JSON, looks up the keys
`accountNumber` and `intervals` (discarding the values), and dumps the
decoded document to the literal path `..\dat4.json`.

The network and the JSON library are the script's only effectful
dependencies; the embedding makes them explicit: the remote behaviour is an
`HttpResult` input, a decoded body is a `JValue`, and the run produces an
event trace together with the request it sent, the error it died with (if
any) and the document it wrote (if any).
-/

namespace GrMtnPower

/-- A JSON document as decoded by Python's `json` module.  Numbers are
modelled as integers, which covers every document the claims touch; the
pass-through properties proved below do not inspect number leaves. -/
inductive JValue : Type where
  | null : JValue
  | bool (b : Bool) : JValue
  | num (n : Int) : JValue
  | str (s : String) : JValue
  | arr (elems : List JValue) : JValue
  | obj (fields : List (String × JValue)) : JValue

/-- Python `d[k]` on a decoded JSON value: a key lookup that succeeds only on
an object that has the key (on a missing key Python raises `KeyError`; on a
non-dict it raises `TypeError`; both are modelled as `none`). -/
def jLookup (v : JValue) (k : String) : Option JValue :=
  match v with
  | .obj fields => fields.lookup k
  | _ => none

/-- The user-supplied variables of lines 12-19 of the script. -/
structure Config where
  GMPaccount : String
  apiKeyId : String
  apiKeySecret : String
  requestInterval : String
  startDate : String
  endDate : String

/-- Line 24: the base API URL. -/
def GMPapiURL : String := "https://api.greenmountainpower.com/api/v2/usage/"

/-- Line 27: the fully assembled URL, by plain string concatenation. -/
def GMPapi (c : Config) : String :=
  GMPapiURL ++ c.GMPaccount ++ "/" ++ c.requestInterval ++ "?startDate=" ++
    c.startDate ++ "T00:00:00Z&endDate=" ++ c.endDate ++ "T23:59:59Z&temp=f"

/-- Line 30: `idSecret = apiKeyId + ":" + apiKeySecret`. -/
def idSecretOf (keyId keySecret : String) : String := keyId ++ ":" ++ keySecret

/-- UTF-8 encoding of one character, as a list of byte values < 256; this is
the standard algorithm implemented by Python's `str.encode("utf-8")` on
line 31. -/
def utf8EncodeCharNat (ch : Char) : List Nat :=
  if ch.toNat < 128 then [ch.toNat]
  else if ch.toNat < 2048 then [192 + ch.toNat / 64, 128 + ch.toNat % 64]
  else if ch.toNat < 65536 then
    [224 + ch.toNat / 4096, 128 + (ch.toNat / 64) % 64, 128 + ch.toNat % 64]
  else
    [240 + ch.toNat / 262144, 128 + (ch.toNat / 4096) % 64, 128 + (ch.toNat / 64) % 64,
      128 + ch.toNat % 64]

/-- UTF-8 encoding of a string (Python `s.encode("utf-8")`). -/
def utf8EncodeStr (s : String) : List Nat := s.data.flatMap utf8EncodeCharNat

/-- Decodes the continuation of a two-byte UTF-8 sequence with lead byte
`b0`, returning the character and the unconsumed bytes; overlong encodings
(code point below 128) and malformed continuation bytes are rejected. -/
def utf8DecodeTwo (b0 : Nat) : List Nat → Option (Char × List Nat)
  | b1 :: rest =>
    if 128 ≤ b1 ∧ b1 < 192 ∧ 128 ≤ (b0 - 192) * 64 + (b1 - 128) then
      some (Char.ofNat ((b0 - 192) * 64 + (b1 - 128)), rest)
    else none
  | [] => none

/-- Decodes the continuation of a three-byte UTF-8 sequence with lead byte
`b0`; overlong encodings and surrogate code points are rejected. -/
def utf8DecodeThree (b0 : Nat) : List Nat → Option (Char × List Nat)
  | b1 :: b2 :: rest =>
    if 128 ≤ b1 ∧ b1 < 192 ∧ 128 ≤ b2 ∧ b2 < 192 ∧
        2048 ≤ (b0 - 224) * 4096 + (b1 - 128) * 64 + (b2 - 128) ∧
        ¬ (55296 ≤ (b0 - 224) * 4096 + (b1 - 128) * 64 + (b2 - 128) ∧
           (b0 - 224) * 4096 + (b1 - 128) * 64 + (b2 - 128) < 57344) then
      some (Char.ofNat ((b0 - 224) * 4096 + (b1 - 128) * 64 + (b2 - 128)), rest)
    else none
  | _ => none

/-- Decodes the continuation of a four-byte UTF-8 sequence with lead byte
`b0`; overlong encodings and code points past U+10FFFF are rejected. -/
def utf8DecodeFour (b0 : Nat) : List Nat → Option (Char × List Nat)
  | b1 :: b2 :: b3 :: rest =>
    if 128 ≤ b1 ∧ b1 < 192 ∧ 128 ≤ b2 ∧ b2 < 192 ∧ 128 ≤ b3 ∧ b3 < 192 ∧
        65536 ≤ (b0 - 240) * 262144 + (b1 - 128) * 4096 + (b2 - 128) * 64 + (b3 - 128) ∧
        (b0 - 240) * 262144 + (b1 - 128) * 4096 + (b2 - 128) * 64 + (b3 - 128) < 1114112 then
      some (Char.ofNat ((b0 - 240) * 262144 + (b1 - 128) * 4096 + (b2 - 128) * 64 + (b3 - 128)),
        rest)
    else none
  | _ => none

/-- Decodes one UTF-8 character from the front of a byte list, returning it
with the unconsumed bytes; stray continuation bytes and lead bytes past
`0xF7` are rejected. -/
def utf8DecodeOne : List Nat → Option (Char × List Nat)
  | [] => none
  | b0 :: rest =>
    if b0 < 128 then some (Char.ofNat b0, rest)
    else if b0 < 192 then none
    else if b0 < 224 then utf8DecodeTwo b0 rest
    else if b0 < 240 then utf8DecodeThree b0 rest
    else if b0 < 248 then utf8DecodeFour b0 rest
    else none

/-- Decodes a whole byte list character by character; the fuel argument
bounds the number of characters and is in practice the list's length, which
always suffices because every character consumes at least one byte. -/
def utf8DecodeAux : Nat → List Nat → Option (List Char)
  | _, [] => some []
  | 0, _ :: _ => none
  | fuel + 1, b0 :: rest =>
    (utf8DecodeOne (b0 :: rest)).bind fun p => (utf8DecodeAux fuel p.2).map (p.1 :: ·)

/-- UTF-8 decoding of a byte list (Python `bytes.decode("utf-8")`): rejects
stray continuation bytes, truncated sequences, overlong encodings,
surrogates and out-of-range code points. -/
def utf8DecodeList (l : List Nat) : Option (List Char) :=
  utf8DecodeAux l.length l

/-- The 64-character alphabet of standard Base64 (RFC 4648). -/
def b64Alphabet : List Char :=
  "ABCDEFGHIJKLMNOPQRSTUVWXYZabcdefghijklmnopqrstuvwxyz0123456789+/".data

/-- The Base64 character for a sextet value. -/
def b64Char (n : Nat) : Char := b64Alphabet.getD n '?'

/-- The sextet value of a Base64 character, `none` off the alphabet. -/
def b64CharVal (ch : Char) : Option Nat := b64Alphabet.indexOf? ch

/-- Standard Base64 with `=` padding over byte values, the algorithm of
Python's `base64.b64encode` on line 31. -/
def b64EncodeList : List Nat → List Char
  | [] => []
  | [a] => [b64Char (a / 4), b64Char ((a % 4) * 16), '=', '=']
  | [a, b] => [b64Char (a / 4), b64Char ((a % 4) * 16 + b / 16), b64Char ((b % 16) * 4), '=']
  | a :: b :: c :: rest =>
    b64Char (a / 4) :: b64Char ((a % 4) * 16 + b / 16) ::
      b64Char ((b % 16) * 4 + c / 64) :: b64Char (c % 64) :: b64EncodeList rest

/-- Standard Base64 decoding with `=` padding (Python `base64.b64decode`). -/
def b64DecodeList : List Char → Option (List Nat)
  | [] => some []
  | c0 :: c1 :: c2 :: c3 :: rest =>
    match b64CharVal c0, b64CharVal c1 with
    | some s0, some s1 =>
      if c2 = '=' then
        if c3 = '=' ∧ rest = [] then some [s0 * 4 + s1 / 16] else none
      else
        match b64CharVal c2 with
        | some s2 =>
          if c3 = '=' then
            if rest = [] then some [s0 * 4 + s1 / 16, (s1 % 16) * 16 + s2 / 4] else none
          else
            match b64CharVal c3 with
            | some s3 =>
              match b64DecodeList rest with
              | some tail => some ((s0 * 4 + s1 / 16) :: ((s1 % 16) * 16 + s2 / 4) ::
                  ((s2 % 4) * 64 + s3) :: tail)
              | none => none
            | none => none
        | none => none
    | _, _ => none
  | _ => none

/-- Line 31: `b64Key = str(base64.b64encode(idSecret.encode("utf-8")), "utf-8")`. -/
def b64KeyOf (keyId keySecret : String) : String :=
  String.mk (b64EncodeList (utf8EncodeStr (idSecretOf keyId keySecret)))

/-- Lines 32-34: the Authorization header value `"Basic %s" % b64Key`. -/
def authValueOf (keyId keySecret : String) : String :=
  "Basic " ++ b64KeyOf keyId keySecret

/-- The Authorization header value as a function of the configuration. -/
def authHeaderValue (c : Config) : String := authValueOf c.apiKeyId c.apiKeySecret

/-- The URL as the spec's §8 testable property words it: "the fixed
concatenation of the base URL, the account id, a slash, the interval string,
`?startDate=`, the start date, `T00:00:00Z&endDate=`, the end date, and
`T23:59:59Z&temp=f`, with every input substituted verbatim". -/
def specAssembledURL (acc interval sd ed : String) : String :=
  "https://api.greenmountainpower.com/api/v2/usage/" ++ acc ++ "/" ++ interval ++
    "?startDate=" ++ sd ++ "T00:00:00Z&endDate=" ++ ed ++ "T23:59:59Z&temp=f"

/-- What `requests.get` on line 37 can deliver: an exception at the
transport level (carrying which kind of network failure occurred), or a
response with a status code, an elapsed time (kept abstract as its printed
text) and a body; the body is recorded as its JSON decoding, `none` when
`.json()` on line 41 would raise a decode error. -/
inductive HttpResult : Type where
  | transportError (kind : String) : HttpResult
  | response (status : Nat) (elapsed : String) (body : Option JValue) : HttpResult

/-- Observable steps of a run, in program order. -/
inductive Event : Type where
  | printStatus (code : Nat) : Event
  | printElapsed (seconds : String) : Event
  | decodeJson : Event
  | writeFile (path : String) (doc : JValue) : Event

/-- The uncaught error a run dies with, when it does. -/
inductive RunError : Type where
  | transportError (kind : String) : RunError
  | jsonDecodeError : RunError
  | keyError (key : String) : RunError

/-- Line 45: the literal path handed to `open(..., "w")`.  The string in the
source is `"..\dat4.json"`; `\d` is not a recognised Python escape, so the
backslash is kept literally. -/
def outPath : String := "..\\dat4.json"

/-- Everything a run leaves behind: the request it sent, the ordered trace
of its observable events, the error that aborted it (if any), and the path
and document of the file it wrote (if any). -/
structure RunResult where
  requestURL : String
  authHeader : String
  events : List Event
  error : Option RunError
  fileWritten : Option (String × JValue)

/-- Lines 37-46 of the script as one straight-line run over a given remote
behaviour: issue the GET (a transport failure propagates uncaught), print
the status code, print the elapsed seconds, decode the body as JSON (a
decode failure propagates), look up `accountNumber` then `intervals`
(a missing key raises `KeyError` and aborts before the write), then dump
the full decoded document to `outPath`. -/
def run (c : Config) (http : HttpResult) : RunResult :=
  match http with
  | .transportError kind =>
    ⟨GMPapi c, authHeaderValue c, [], some (.transportError kind), none⟩
  | .response status elapsed body =>
    match body with
    | none =>
      ⟨GMPapi c, authHeaderValue c,
        [.printStatus status, .printElapsed elapsed, .decodeJson],
        some .jsonDecodeError, none⟩
    | some v =>
      match jLookup v "accountNumber" with
      | none =>
        ⟨GMPapi c, authHeaderValue c,
          [.printStatus status, .printElapsed elapsed, .decodeJson],
          some (.keyError "accountNumber"), none⟩
      | some _ =>
        match jLookup v "intervals" with
        | none =>
          ⟨GMPapi c, authHeaderValue c,
            [.printStatus status, .printElapsed elapsed, .decodeJson],
            some (.keyError "intervals"), none⟩
        | some _ =>
          ⟨GMPapi c, authHeaderValue c,
            [.printStatus status, .printElapsed elapsed, .decodeJson] ++
              [.writeFile outPath v],
            none, some (outPath, v)⟩

/-- The document stored at the output path after a run, given what was there
before: `open(path, "w")` truncates, so a write replaces the previous
content entirely, and a run that never reaches the write leaves the
previous content in place. -/
def finalFileContents (prev : Option JValue) (r : RunResult) : Option JValue :=
  match r.fileWritten with
  | some (_, v) => some v
  | none => prev

/-- File-handle events of the persist step. -/
inductive FileEvent : Type where
  | opened : FileEvent
  | wrote : FileEvent
  | closed : FileEvent

/-- Whether `json.dump` on line 46 returns normally or raises. -/
inductive DumpOutcome : Type where
  | ok : DumpOutcome
  | raises : DumpOutcome

/-- Lines 45-46, `with open(outPath, "w") as outfile: json.dump(...)`, at the
level of the file handle: Python's with-statement desugars to open, run the
body, and close the handle on the normal exit path as well as when the body
raises (the exception then continues to propagate, the second component
recording whether the step succeeded). -/
def persistStep (d : DumpOutcome) : List FileEvent × Bool :=
  match d with
  | .ok => ([.opened, .wrote, .closed], true)
  | .raises => ([.opened, .closed], false)

/-- Drops the literal `Basic ` tag from a header value's characters. -/
def stripBasicTag : List Char → Option (List Char)
  | 'B' :: 'a' :: 's' :: 'i' :: 'c' :: ' ' :: rest => some rest
  | _ => none

/-- Splits a character list at the first colon: everything before it and
everything after it (the whole list and `[]` when no colon occurs). -/
def splitChars : List Char → List Char × List Char
  | [] => ([], [])
  | c :: rest =>
    if c = ':' then ([], rest)
    else
      let (l, r) := splitChars rest
      (c :: l, r)

/-- The round-trip of the spec's §8 property: strip the `Basic ` tag from a
header value, Base64-decode the payload, UTF-8-decode the bytes, and split
the recovered string on its first colon into an id/secret pair. -/
def recoverFromHeader (header : String) : Option (String × String) :=
  (stripBasicTag header.data).bind fun payload =>
    (b64DecodeList payload).bind fun bytes =>
      (utf8DecodeList bytes).map fun chars =>
        (String.mk (splitChars chars).1, String.mk (splitChars chars).2)

/-- A concrete configuration used by witnesses and counterexamples. -/
def cfgEx : Config :=
  ⟨"12345", "user", "pa55", "hourly", "2016-11-05", "2016-11-05"⟩

/-- The spec's §8 example document `{"accountNumber":"A1","intervals":[1,2,3]}`. -/
def docEx : JValue :=
  .obj [("accountNumber", .str "A1"), ("intervals", .arr [.num 1, .num 2, .num 3])]

/-- A document missing `accountNumber`, the spec's §8 example `{"intervals":[]}`. -/
def docMissingEx : JValue := .obj [("intervals", .arr [])]

/-! ### Helper lemmas -/

theorem b64CharVal_b64Char : ∀ n < 64, b64CharVal (b64Char n) = some n := by decide

theorem b64Char_ne_pad : ∀ n < 64, b64Char n ≠ '=' := by decide

theorem b64_roundtrip (bs : List Nat) (h : ∀ x ∈ bs, x < 256) :
    b64DecodeList (b64EncodeList bs) = some bs := by
  induction bs using b64EncodeList.induct with
  | case1 => rfl
  | case2 a =>
    have ha : a < 256 := h a (by simp)
    have h1 : a / 4 < 64 := by omega
    have h2 : (a % 4) * 16 < 64 := by omega
    simp only [b64EncodeList, b64DecodeList, b64CharVal_b64Char _ h1, b64CharVal_b64Char _ h2]
    simp only [if_pos rfl, and_self, reduceIte]
    congr 1
    simp
    omega
  | case3 a b =>
    have ha : a < 256 := h a (by simp)
    have hb : b < 256 := h b (by simp)
    have h1 : a / 4 < 64 := by omega
    have h2 : (a % 4) * 16 + b / 16 < 64 := by omega
    have h3 : (b % 16) * 4 < 64 := by omega
    simp only [b64EncodeList, b64DecodeList, b64CharVal_b64Char _ h1, b64CharVal_b64Char _ h2,
      b64CharVal_b64Char _ h3]
    rw [if_neg (b64Char_ne_pad _ h3)]
    simp only [if_pos rfl, reduceIte]
    congr 1
    simp
    omega
  | case4 a b c rest ih =>
    have ha : a < 256 := h a (by simp)
    have hb : b < 256 := h b (by simp)
    have hc : c < 256 := h c (by simp)
    have h1 : a / 4 < 64 := by omega
    have h2 : (a % 4) * 16 + b / 16 < 64 := by omega
    have h3 : (b % 16) * 4 + c / 64 < 64 := by omega
    have h4 : c % 64 < 64 := by omega
    have ih' := ih (fun x hx => h x (by simp [hx]))
    simp only [b64EncodeList, b64DecodeList, b64CharVal_b64Char _ h1, b64CharVal_b64Char _ h2,
      b64CharVal_b64Char _ h3, b64CharVal_b64Char _ h4]
    rw [if_neg (b64Char_ne_pad _ h3), if_neg (b64Char_ne_pad _ h4), ih']
    simp
    omega

theorem char_toNat_valid (c : Char) :
    c.toNat < 55296 ∨ (57344 ≤ c.toNat ∧ c.toNat < 1114112) := by
  have h := c.valid
  simp only [UInt32.isValidChar, Nat.isValidChar] at h
  exact h

theorem utf8DecodeOne_enc (c : Char) (tail : List Nat) :
    utf8DecodeOne (utf8EncodeCharNat c ++ tail) = some (c, tail) := by
  have hv := char_toNat_valid c
  have hofnat : Char.ofNat c.toNat = c := Char.ofNat_toNat c
  by_cases h1 : c.toNat < 128
  · rw [show utf8EncodeCharNat c = [c.toNat] from by rw [utf8EncodeCharNat, if_pos h1]]
    rw [List.cons_append, List.nil_append, utf8DecodeOne, if_pos h1, hofnat]
  · by_cases h2 : c.toNat < 2048
    · rw [show utf8EncodeCharNat c = [192 + c.toNat / 64, 128 + c.toNat % 64] from by
        rw [utf8EncodeCharNat, if_neg h1, if_pos h2]]
      simp only [List.cons_append, List.nil_append]
      rw [utf8DecodeOne, if_neg (by omega), if_neg (by omega), if_pos (by omega),
        utf8DecodeTwo, if_pos (by omega)]
      rw [show (192 + c.toNat / 64 - 192) * 64 + (128 + c.toNat % 64 - 128) = c.toNat by omega,
        hofnat]
    · by_cases h3 : c.toNat < 65536
      · rw [show utf8EncodeCharNat c =
            [224 + c.toNat / 4096, 128 + (c.toNat / 64) % 64, 128 + c.toNat % 64] from by
          rw [utf8EncodeCharNat, if_neg h1, if_neg h2, if_pos h3]]
        simp only [List.cons_append, List.nil_append]
        rw [utf8DecodeOne, if_neg (by omega), if_neg (by omega), if_neg (by omega),
          if_pos (by omega), utf8DecodeThree, if_pos (by omega)]
        rw [show (224 + c.toNat / 4096 - 224) * 4096 + (128 + (c.toNat / 64) % 64 - 128) * 64 +
            (128 + c.toNat % 64 - 128) = c.toNat by omega, hofnat]
      · rw [show utf8EncodeCharNat c =
            [240 + c.toNat / 262144, 128 + (c.toNat / 4096) % 64, 128 + (c.toNat / 64) % 64,
              128 + c.toNat % 64] from by
          rw [utf8EncodeCharNat, if_neg h1, if_neg h2, if_neg h3]]
        simp only [List.cons_append, List.nil_append]
        rw [utf8DecodeOne, if_neg (by omega), if_neg (by omega), if_neg (by omega),
          if_neg (by omega), if_pos (by omega), utf8DecodeFour, if_pos (by omega)]
        rw [show (240 + c.toNat / 262144 - 240) * 262144 + (128 + (c.toNat / 4096) % 64 - 128) *
            4096 + (128 + (c.toNat / 64) % 64 - 128) * 64 + (128 + c.toNat % 64 - 128) =
            c.toNat by omega, hofnat]

theorem utf8EncodeCharNat_ne_nil (c : Char) : utf8EncodeCharNat c ≠ [] := by
  rw [utf8EncodeCharNat]
  split
  · simp
  · split
    · simp
    · split <;> simp

theorem utf8EncodeCharNat_lt_256 (c : Char) : ∀ x ∈ utf8EncodeCharNat c, x < 256 := by
  have hv := char_toNat_valid c
  rw [utf8EncodeCharNat]
  split
  · intro x hx; simp at hx; omega
  · split
    · intro x hx; simp at hx; omega
    · split
      · intro x hx; simp at hx; omega
      · intro x hx; simp at hx; omega

theorem utf8EncodeStr_lt_256 (s : String) : ∀ x ∈ utf8EncodeStr s, x < 256 := by
  intro x hx
  simp only [utf8EncodeStr, List.mem_flatMap] at hx
  obtain ⟨c, _, hc⟩ := hx
  exact utf8EncodeCharNat_lt_256 c x hc

theorem utf8DecodeAux_roundtrip (cs : List Char) :
    ∀ fuel, (cs.flatMap utf8EncodeCharNat).length ≤ fuel →
      utf8DecodeAux fuel (cs.flatMap utf8EncodeCharNat) = some cs := by
  induction cs with
  | nil => intro fuel _; rw [List.flatMap_nil]; cases fuel <;> rfl
  | cons c rest ih =>
    intro fuel hfuel
    rw [List.flatMap_cons] at hfuel ⊢
    obtain ⟨e0, es, henc⟩ : ∃ e0 es, utf8EncodeCharNat c = e0 :: es := by
      cases h : utf8EncodeCharNat c with
      | nil => exact absurd h (utf8EncodeCharNat_ne_nil c)
      | cons x xs => exact ⟨x, xs, rfl⟩
    have hlen : 1 ≤ (utf8EncodeCharNat c).length := by rw [henc]; simp
    rw [List.length_append] at hfuel
    obtain ⟨f, rfl⟩ : ∃ f, fuel = f + 1 := by
      cases fuel with
      | zero => omega
      | succ f => exact ⟨f, rfl⟩
    have hsplit : utf8EncodeCharNat c ++ rest.flatMap utf8EncodeCharNat =
        e0 :: (es ++ rest.flatMap utf8EncodeCharNat) := by rw [henc]; rfl
    have hrest : (rest.flatMap utf8EncodeCharNat).length ≤ f := by omega
    rw [hsplit, utf8DecodeAux, ← hsplit, utf8DecodeOne_enc, Option.some_bind, ih f hrest,
      Option.map_some']

theorem utf8_roundtrip (cs : List Char) :
    utf8DecodeList (cs.flatMap utf8EncodeCharNat) = some cs :=
  utf8DecodeAux_roundtrip cs _ le_rfl

theorem splitChars_append (l r : List Char) (h : ':' ∉ l) :
    splitChars (l ++ ':' :: r) = (l, r) := by
  induction l with
  | nil => rw [List.nil_append, splitChars, if_pos rfl]
  | cons c cs ih =>
    have hc : c ≠ ':' := fun e => h (e ▸ List.mem_cons_self c cs)
    have hcs : ':' ∉ cs := fun m => h (List.mem_cons_of_mem c m)
    rw [List.cons_append, splitChars, if_neg hc, ih hcs]

theorem stripBasicTag_append (rest : List Char) :
    stripBasicTag ("Basic ".data ++ rest) = some rest := rfl

theorem idSecretOf_data (keyId keySecret : String) :
    (idSecretOf keyId keySecret).data = keyId.data ++ ':' :: keySecret.data := by
  rw [idSecretOf, String.data_append, String.data_append, List.append_assoc]
  rfl

theorem run_request_fields (c : Config) (w : HttpResult) :
    (run c w).requestURL = GMPapi c ∧ (run c w).authHeader = authHeaderValue c := by
  cases w with
  | transportError k => exact ⟨rfl, rfl⟩
  | response s e b =>
    cases b with
    | none => exact ⟨rfl, rfl⟩
    | some v =>
      rw [run]
      cases jLookup v "accountNumber" with
      | none => exact ⟨rfl, rfl⟩
      | some x =>
        cases jLookup v "intervals" with
        | none => exact ⟨rfl, rfl⟩
        | some y => exact ⟨rfl, rfl⟩

/-! ### Claim theorems -/

/-- Claim C1: for every mocked remote response whose body is a JSON object
containing both the `accountNumber` and `intervals` keys, the document
persisted to the output file is exactly the response object — the run
succeeds and writes the decoded value unchanged, so no field is added,
removed, or renamed. -/
theorem passthrough_writes_response_verbatim (c : Config) (status : Nat) (elapsed : String)
    (fields : List (String × JValue))
    (h1 : (jLookup (JValue.obj fields) "accountNumber").isSome = true)
    (h2 : (jLookup (JValue.obj fields) "intervals").isSome = true) :
    (run c (.response status elapsed (some (.obj fields)))).fileWritten =
      some (outPath, JValue.obj fields) ∧
    (run c (.response status elapsed (some (.obj fields)))).error = none := by
  obtain ⟨x, hx⟩ := Option.isSome_iff_exists.mp h1
  obtain ⟨y, hy⟩ := Option.isSome_iff_exists.mp h2
  rw [run, hx, hy]
  exact ⟨rfl, rfl⟩

/-- Witness for C1 at the spec's example `{"accountNumber":"A1","intervals":[1,2,3]}`. -/
theorem passthrough_writes_response_verbatim_witness :
    (jLookup docEx "accountNumber").isSome = true ∧
    (jLookup docEx "intervals").isSome = true ∧
    (run cfgEx (.response 200 "0.123" (some docEx))).fileWritten = some (outPath, docEx) :=
  ⟨rfl, rfl,
    (passthrough_writes_response_verbatim cfgEx 200 "0.123"
      [("accountNumber", .str "A1"), ("intervals", .arr [.num 1, .num 2, .num 3])]
      rfl rfl).1⟩

/-- Claim C2: for all account, interval and date inputs, the assembled
request URL equals the fixed concatenation template with every input
substituted verbatim — character for character, with no URL-encoding or
validation applied to any component. -/
theorem url_equals_template (c : Config) :
    GMPapi c = specAssembledURL c.GMPaccount c.requestInterval c.startDate c.endDate ∧
    (GMPapi c).data =
      "https://api.greenmountainpower.com/api/v2/usage/".data ++ c.GMPaccount.data ++
        "/".data ++ c.requestInterval.data ++ "?startDate=".data ++ c.startDate.data ++
        "T00:00:00Z&endDate=".data ++ c.endDate.data ++ "T23:59:59Z&temp=f".data := by
  constructor
  · rfl
  · simp only [GMPapi, GMPapiURL, String.data_append]

/-- Counterexample to C3 as stated: with `apiKeyId = "a:b"` and
`apiKeySecret = "c"`, decoding the header payload and splitting on the
first colon yields `("a", "b:c")`, not the original pair. -/
theorem auth_roundtrip_cx :
    recoverFromHeader (authValueOf "a:b" "c") = some ("a", "b:c") ∧
    recoverFromHeader (authValueOf "a:b" "c") ≠ some ("a:b", "c") := by
  constructor
  · rfl
  · decide

/-- Claim C3 (amended: the id must not itself contain a colon; the secret
may): the Authorization header value equals `Basic ` followed by the
standard Base64 encoding of the UTF-8 bytes of `apiKeyId ++ ":" ++
apiKeySecret`, and when the id contains no colon the round-trip holds:
Base64-decoding the header payload and splitting the decoded string on its
first colon recovers the original id and secret. -/
theorem auth_roundtrip (keyId keySecret : String) (h : ':' ∉ keyId.data) :
    authValueOf keyId keySecret =
      "Basic " ++ String.mk (b64EncodeList (utf8EncodeStr (keyId ++ ":" ++ keySecret))) ∧
    recoverFromHeader (authValueOf keyId keySecret) = some (keyId, keySecret) := by
  constructor
  · rfl
  · have hdata : (authValueOf keyId keySecret).data =
        "Basic ".data ++ b64EncodeList (utf8EncodeStr (idSecretOf keyId keySecret)) := by
      rw [authValueOf, String.data_append]; rfl
    have hutf8 : utf8DecodeList (utf8EncodeStr (idSecretOf keyId keySecret)) =
        some (idSecretOf keyId keySecret).data := utf8_roundtrip _
    rw [recoverFromHeader, hdata, stripBasicTag_append, Option.some_bind,
      b64_roundtrip _ (utf8EncodeStr_lt_256 _), Option.some_bind, hutf8, Option.map_some',
      idSecretOf_data, splitChars_append _ _ h]

/-- Witness for C3 (amended) at `apiKeyId = "user"`, `apiKeySecret = "pa:ss"`. -/
theorem auth_roundtrip_witness :
    ':' ∉ "user".data ∧
    recoverFromHeader (authValueOf "user" "pa:ss") = some ("user", "pa:ss") :=
  ⟨by decide, (auth_roundtrip "user" "pa:ss" (by decide)).2⟩

/-- Claim C4: a response body that is a JSON object lacking `accountNumber`
or `intervals` makes the run fail with a key-lookup error before the file
write: no file is written, and whatever was at the output path before the
run is left in place. -/
theorem missing_key_aborts_before_write (c : Config) (status : Nat) (elapsed : String)
    (fields : List (String × JValue))
    (h : jLookup (JValue.obj fields) "accountNumber" = none ∨
         jLookup (JValue.obj fields) "intervals" = none) :
    (run c (.response status elapsed (some (.obj fields)))).fileWritten = none ∧
    ((run c (.response status elapsed (some (.obj fields)))).error =
        some (.keyError "accountNumber") ∨
      (run c (.response status elapsed (some (.obj fields)))).error =
        some (.keyError "intervals")) ∧
    ∀ prev, finalFileContents prev (run c (.response status elapsed (some (.obj fields)))) =
      prev := by
  cases h with
  | inl h1 =>
    rw [run, h1]
    exact ⟨rfl, Or.inl rfl, fun prev => rfl⟩
  | inr h2 =>
    cases ha : jLookup (JValue.obj fields) "accountNumber" with
    | none =>
      rw [run, ha]
      exact ⟨rfl, Or.inl rfl, fun prev => rfl⟩
    | some x =>
      rw [run, ha, h2]
      exact ⟨rfl, Or.inr rfl, fun prev => rfl⟩

/-- Witness for C4 at the spec's example `{"intervals":[]}`. -/
theorem missing_key_aborts_before_write_witness :
    jLookup docMissingEx "accountNumber" = none ∧
    (run cfgEx (.response 200 "0.5" (some docMissingEx))).fileWritten = none :=
  ⟨rfl, (missing_key_aborts_before_write cfgEx 200 "0.5" [("intervals", .arr [])]
    (Or.inl rfl)).1⟩

/-- Claim C5: the HTTP status code never affects control flow — two
responses differing only in status produce the same error and the same file
outcome, and in particular a response with any status (2xx or not) whose
body is valid JSON with both expected keys is still decoded and written to
the output file. -/
theorem status_ignored (c : Config) (s1 s2 : Nat) (elapsed : String) (body : Option JValue)
    (v : JValue) (h1 : (jLookup v "accountNumber").isSome = true)
    (h2 : (jLookup v "intervals").isSome = true) :
    ((run c (.response s1 elapsed body)).fileWritten =
        (run c (.response s2 elapsed body)).fileWritten ∧
      (run c (.response s1 elapsed body)).error =
        (run c (.response s2 elapsed body)).error) ∧
    (run c (.response s1 elapsed (some v))).fileWritten = some (outPath, v) := by
  obtain ⟨x, hx⟩ := Option.isSome_iff_exists.mp h1
  obtain ⟨y, hy⟩ := Option.isSome_iff_exists.mp h2
  refine ⟨?_, ?_⟩
  · cases body with
    | none => exact ⟨rfl, rfl⟩
    | some w =>
      cases ha : jLookup w "accountNumber" with
      | none => simp [run, ha]
      | some a =>
        cases hb : jLookup w "intervals" with
        | none => simp [run, ha, hb]
        | some b => simp [run, ha, hb]
  · rw [run, hx, hy]

/-- Witness for C5 at a non-2xx status (500) with a valid body. -/
theorem status_ignored_witness :
    (jLookup docEx "accountNumber").isSome = true ∧
    (run cfgEx (.response 500 "1.0" (some docEx))).fileWritten = some (outPath, docEx) :=
  ⟨rfl, (status_ignored cfgEx 500 200 "1.0" (some docEx) docEx rfl rfl).2⟩

/-- Counterexample to C6 as stated: the path handed to `open` is the
literal `..\dat4.json` — a backslash, not the forward-slash path
`../dat4.json` the claim names. -/
theorem output_path_cx :
    (run cfgEx (.response 200 "0.2" (some docEx))).fileWritten.map Prod.fst =
      some "..\\dat4.json" ∧
    ("..\\dat4.json" : String) ≠ "../dat4.json" := by
  constructor
  · rfl
  · decide

/-- Claim C6 (amended: the path literal is `..\dat4.json` with a backslash,
which denotes `dat4.json` in the parent of the working directory under
Windows path semantics and a file literally named `..\dat4.json` in the
working directory on POSIX): every successful run writes the serialized
response to exactly that path, and the write replaces any previous content
at that path. -/
theorem output_path_amended (c : Config) (http : HttpResult) (p : String) (v : JValue)
    (h : (run c http).fileWritten = some (p, v)) :
    p = outPath ∧ outPath = "..\\dat4.json" ∧
    ∀ prev, finalFileContents prev (run c http) = some v := by
  have hfile : ∀ prev, finalFileContents prev (run c http) = some v := by
    intro prev
    rw [finalFileContents, h]
  refine ⟨?_, rfl, hfile⟩
  cases http with
  | transportError k => simp [run] at h
  | response s e b =>
    cases b with
    | none => simp [run] at h
    | some w =>
      cases ha : jLookup w "accountNumber" with
      | none => rw [run, ha] at h; simp at h
      | some x =>
        cases hb : jLookup w "intervals" with
        | none => rw [run, ha, hb] at h; simp at h
        | some y =>
          rw [run, ha, hb] at h
          simp only [Option.some.injEq, Prod.mk.injEq] at h
          exact h.1.symm

/-- Witness for C6 (amended) at a concrete successful run. -/
theorem output_path_amended_witness :
    (run cfgEx (.response 200 "0.3" (some docEx))).fileWritten = some (outPath, docEx) ∧
    outPath = "..\\dat4.json" :=
  ⟨rfl, (output_path_amended cfgEx (.response 200 "0.3" (some docEx)) outPath docEx
    rfl).2.1⟩

/-- Claim C7: every network-level failure of the GET (whatever its kind:
DNS, connection refused, TLS) aborts the run with an uncaught transport
error before anything else happens — nothing is printed, no output file is
produced, and previous file content is left in place. -/
theorem transport_error_aborts (c : Config) (kind : String) :
    (run c (.transportError kind)).error = some (.transportError kind) ∧
    (run c (.transportError kind)).fileWritten = none ∧
    (run c (.transportError kind)).events = [] ∧
    ∀ prev, finalFileContents prev (run c (.transportError kind)) = prev :=
  ⟨rfl, rfl, rfl, fun _ => rfl⟩

/-- Claim C8: on both exit paths of the persist step — `json.dump`
returning normally or raising — the output file handle opened by the
`with` statement is closed. -/
theorem file_handle_closed (d : DumpOutcome) :
    FileEvent.closed ∈ (persistStep d).1 := by
  cases d <;> simp [persistStep]

/-- Claim C9: on every run in which a response is received, the status code
and the elapsed seconds are printed, in that order, before the JSON decode
is attempted — the trace always begins with the two print events followed
by the decode event, whatever happens afterwards. -/
theorem prints_before_decode (c : Config) (status : Nat) (elapsed : String)
    (body : Option JValue) :
    ∃ rest, (run c (.response status elapsed body)).events =
      Event.printStatus status :: Event.printElapsed elapsed :: Event.decodeJson :: rest := by
  cases body with
  | none => exact ⟨[], rfl⟩
  | some v =>
    cases ha : jLookup v "accountNumber" with
    | none =>
      refine ⟨[], ?_⟩
      rw [run, ha]
    | some x =>
      cases hb : jLookup v "intervals" with
      | none =>
        refine ⟨[], ?_⟩
        rw [run, ha, hb]
      | some y =>
        refine ⟨[Event.writeFile outPath v], ?_⟩
        rw [run, ha, hb]
        rfl

/-- Claim C10: URL and header construction are deterministic pure functions
of the configuration — two runs whose configurations agree on the six
user-supplied values send the identical request URL and Authorization
header, whatever the network does in either run. -/
theorem request_deterministic (c1 c2 : Config) (w1 w2 : HttpResult)
    (h1 : c1.GMPaccount = c2.GMPaccount) (h2 : c1.apiKeyId = c2.apiKeyId)
    (h3 : c1.apiKeySecret = c2.apiKeySecret) (h4 : c1.requestInterval = c2.requestInterval)
    (h5 : c1.startDate = c2.startDate) (h6 : c1.endDate = c2.endDate) :
    (run c1 w1).requestURL = (run c2 w2).requestURL ∧
    (run c1 w1).authHeader = (run c2 w2).authHeader := by
  obtain ⟨hu1, ha1⟩ := run_request_fields c1 w1
  obtain ⟨hu2, ha2⟩ := run_request_fields c2 w2
  rw [hu1, hu2, ha1, ha2]
  constructor
  · simp only [GMPapi, h1, h4, h5, h6]
  · simp only [authHeaderValue, h2, h3]

/-- Witness for C10: identical configuration, different network outcomes. -/
theorem request_deterministic_witness :
    cfgEx.GMPaccount = cfgEx.GMPaccount ∧
    (run cfgEx (.transportError "dns")).requestURL =
      (run cfgEx (.response 200 "0.4" (some docEx))).requestURL :=
  ⟨rfl, (request_deterministic cfgEx cfgEx (.transportError "dns")
    (.response 200 "0.4" (some docEx)) rfl rfl rfl rfl rfl rfl).1⟩

end GrMtnPower
